import Mathlib

/-!
Shallow embedding of src/loader.py (class DataLoader): a dataset
loader/batcher for paired CT slices.  2D numpy arrays are modelled as
lists of lists of integers (the claims under study concern indexing,
shapes and zero-filling, never float arithmetic, so the scalar type is
opaque and we take ℤ; numpy float32 zeros are modelled by 0).  Python
exceptions are modelled with Except.  The numpy / Python random draws
(np.random.randint, the per-transform Bernoulli trials, np.random.shuffle)
are modelled by explicit parameters: a seed-like natural reduced mod the
range for randint, rational uniforms in [0,1) for the trials, and an
arbitrary permutation-producing function for shuffle.  The three
albumentations transforms are external collaborators and are passed in as
opaque functions on (image, mask) pairs.
-/

set_option autoImplicit false

universe u

/-- The loader mode: the Python constructor asserts mode is one of
"train", "valid", "test", so the embedding uses an enumeration. -/
inductive Mode where
  | train
  | valid
  | test
deriving DecidableEq

/-- Kinds of Python exceptions that the embedded code can raise. -/
inductive Err where
  | assertionError
  | valueError
  | indexError
  | nameError
  | typeError
deriving DecidableEq

instance {ε : Type u} {α : Type u} [DecidableEq ε] [DecidableEq α] :
    DecidableEq (Except ε α) := fun a b =>
  match a, b with
  | Except.ok x, Except.ok y =>
    if h : x = y then isTrue (by rw [h]) else isFalse (by simp [h])
  | Except.error x, Except.error y =>
    if h : x = y then isTrue (by rw [h]) else isFalse (by simp [h])
  | Except.ok _, Except.error _ => isFalse (by simp)
  | Except.error _, Except.ok _ => isFalse (by simp)

/-- A 2D numpy array (one CT slice). -/
abbrev Arr2 := List (List ℤ)

/-- A 3D numpy array (a slice with a trailing channel axis). -/
abbrev Arr3 := List (List (List ℤ))

/-- Clamp one bound of a Python slice `l[a:b]` to an index in [0, n]:
negative bounds count from the end and clamp at 0, nonnegative bounds
clamp at n. -/
def pyIdx (n : ℕ) (i : ℤ) : ℕ :=
  if i < 0 then ((n : ℤ) + i).toNat else min i.toNat n

/-- Python / numpy slice `l[a:b]` with step 1: never raises, clamps both
bounds into range. -/
def pySlice {α : Type u} (a b : ℤ) (l : List α) : List α :=
  (l.drop (pyIdx l.length a)).take (pyIdx l.length b - pyIdx l.length a)

/-- First component of `img.shape` (row count). -/
def shape0 (a : Arr2) : ℕ := a.length

/-- Second component of `img.shape` (column count, read off the first
row as numpy does for a rectangular array; 0 for an empty array). -/
def shape1 (a : Arr2) : ℕ := a.headI.length

/-- Well-formedness of a 2D array: rectangular with shape (X, Y). -/
def Arr2.wf (X Y : ℕ) (a : Arr2) : Prop :=
  a.length = X ∧ ∀ r ∈ a, r.length = Y

instance (X Y : ℕ) (a : Arr2) : Decidable (Arr2.wf X Y a) := by
  unfold Arr2.wf; infer_instance

/-- `np.zeros((X, Y))` (float32 zeros modelled by the integer 0). -/
def zerosArr (X Y : ℕ) : Arr2 :=
  List.replicate X (List.replicate Y 0)

/-- `a[..., np.newaxis]`: append a trailing singleton channel axis. -/
def addChannel (a : Arr2) : Arr3 :=
  a.map (fun r => r.map (fun v => [v]))

/-- The (P, P) window of `a` whose top-left corner is (x, y):
`a[x:x+P, y:y+P]` for in-range nonnegative offsets. -/
def windowAt (x y P : ℕ) (a : Arr2) : Arr2 :=
  ((a.drop x).take P).map (fun r => (r.drop y).take P)

/-- Prefix test on character lists (helper for substring containment). -/
def isPref : List Char → List Char → Bool
  | [], _ => true
  | _ :: _, [] => false
  | a :: as, b :: bs => a == b && isPref as bs

/-- Python `needle in hay` on strings: substring containment. -/
def listContains (needle hay : List Char) : Bool :=
  hay.tails.any (isPref needle)

/-- One discovered file: its name (for the patient-tag filter) and the
2D array `np.load` yields for it.  Loading itself (disk I/O, parsing) is
the external volume-store collaborator, so the array is given. -/
structure FileEnt where
  name : List Char
  arr : Arr2

/-- The composed albumentations pipeline built by get_augmentation: the
three per-transform probabilities captured at composition time. -/
structure AugPipeline where
  p_distort : ℚ
  p_elastic : ℚ
  p_histeq : ℚ
deriving DecidableEq

/-- The three uniform draws in [0,1), one Bernoulli trial per transform
of the composed pipeline, for one sample. -/
structure AugDraws where
  u1 : ℚ
  u2 : ℚ
  u3 : ℚ

/-- The three transforms (GridDistortion, ElasticTransform, CLAHE) as
opaque external collaborators acting on an (image, mask) pair. -/
structure AugFns where
  gridDistortion : Arr2 → Arr2 → Arr2 × Arr2
  elasticTransform : Arr2 → Arr2 → Arr2 × Arr2
  clahe : Arr2 → Arr2 → Arr2 × Arr2

/-- `self.aug(image=ldct, mask=ndct)`: the Compose pipeline applies each
transform in order, each gated by its own Bernoulli trial at the
probability captured in the pipeline. -/
def applyAug (fns : AugFns) (pl : AugPipeline) (d : AugDraws)
    (img mask : Arr2) : Arr2 × Arr2 :=
  let s1 := if d.u1 < pl.p_distort then fns.gridDistortion img mask else (img, mask)
  let s2 := if d.u2 < pl.p_elastic then fns.elasticTransform s1.1 s1.2 else s1
  if d.u3 < pl.p_histeq then fns.clahe s2.1 s2.2 else s2

/-- State of a DataLoader instance (the Python object's attributes).
`data_path` is dropped: it is only consumed by the external glob. -/
structure DataLoader where
  mode : Mode
  valid_patient : List Char
  test_patient : List Char
  batch_size : ℕ
  train_pair : Bool
  patch_size : Option ℕ
  input_size : ℕ × ℕ
  ldct : List Arr2
  ndct : List Arr2
  indexes : List ℕ
  prob_distort : ℚ
  prob_elastic : ℚ
  prob_histeq : ℚ
  aug : AugPipeline
deriving DecidableEq

/-- Pairing policy from getbatch:
`ndct_i = ldct_i-1 if ldct_i != 0 else ldct_i+1` when train_pair is
false, `ndct_i = ldct_i` when true.  Indexes come from np.arange so they
are natural numbers. -/
def pairIndex (train_pair : Bool) (j : ℕ) : ℕ :=
  if train_pair then j else if j ≠ 0 then j - 1 else j + 1

/-- `np.random.randint(0, hi)`: raises ValueError when hi <= 0, else
returns a uniform integer in [0, hi), modelled as the seed r mod hi. -/
def np_randint0 (r : ℕ) (hi : ℤ) : Except Err ℤ :=
  if hi ≤ 0 then Except.error Err.valueError
  else Except.ok ((r : ℤ) % hi)

/-- DataLoader.random_crop.  Asserts the two shapes agree, then reads
crop_size from patch_size; when patch_size is not an int the isinstance
guard leaves crop_size unbound and the later use raises NameError.  The
offsets come from np.random.randint over [0, h-P) and [0, w-P), and the
same offsets slice both arrays. -/
def random_crop (patch : Option ℕ) (rx ry : ℕ) (img mask : Arr2) :
    Except Err (Arr2 × Arr2) :=
  if (shape0 img, shape1 img) = (shape0 mask, shape1 mask) then
    match patch with
    | none => Except.error Err.nameError
    | some P =>
      match np_randint0 rx ((shape0 img : ℤ) - (P : ℤ)) with
      | Except.error e => Except.error e
      | Except.ok x =>
        match np_randint0 ry ((shape1 img : ℤ) - (P : ℤ)) with
        | Except.error e => Except.error e
        | Except.ok y =>
          Except.ok
            ((pySlice x (x + (P : ℤ)) img).map (fun r => pySlice y (y + (P : ℤ)) r),
             (pySlice x (x + (P : ℤ)) mask).map (fun r => pySlice y (y + (P : ℤ)) r))
  else Except.error Err.assertionError

/-- DataLoader.center_crop with an integer patch size P:
startx = x//2 - P//2, starty = y//2 - P//2, then the Python slice
img[startx:startx+P, starty:starty+P] (which clamps, never raises). -/
def center_crop (P : ℕ) (img : Arr2) : Arr2 :=
  let startx : ℤ := ((shape0 img / 2 : ℕ) : ℤ) - ((P / 2 : ℕ) : ℤ)
  let starty : ℤ := ((shape1 img / 2 : ℕ) : ℤ) - ((P / 2 : ℕ) : ℤ)
  (pySlice startx (startx + (P : ℤ)) img).map
    (fun r => pySlice starty (starty + (P : ℤ)) r)

/-- Python list indexing `l[i]` for a nonnegative index: IndexError when
out of range. -/
def listGet {α : Type u} (l : List α) (i : ℕ) : Except Err α :=
  match l.get? i with
  | some v => Except.ok v
  | none => Except.error Err.indexError

/-- numpy row assignment `rows[i] = v` into a (batch, X, Y) buffer:
IndexError when i is out of range, ValueError when the assigned array
does not match the row shape (degenerate numpy broadcasts cannot occur
at the shapes arising here and are not modelled). -/
def setRow (size : ℕ × ℕ) (rows : List Arr2) (i : ℕ) (v : Arr2) :
    Except Err (List Arr2) :=
  if i < rows.length then
    if v.length = size.1 ∧ ∀ r ∈ v, r.length = size.2 then
      Except.ok (rows.set i v)
    else Except.error Err.valueError
  else Except.error Err.indexError

/-- The per-sample body of the getbatch loop after fetching the pair:
train mode augments (with the pipeline pl) and random-crops, other modes
center-crop both arrays.  A patch_size of None raises inside the crops:
NameError in random_crop (unbound crop_size), TypeError in center_crop
(None // 2). -/
def procSample (fns : AugFns) (pl : AugPipeline) (d : AugDraws)
    (rc : ℕ × ℕ) (s : DataLoader) (ld nd : Arr2) :
    Except Err (Arr2 × Arr2) :=
  if s.mode = Mode.train then
    let a := applyAug fns pl d ld nd
    random_crop s.patch_size rc.1 rc.2 a.1 a.2
  else
    match s.patch_size with
    | none => Except.error Err.typeError
    | some P => Except.ok (center_crop P ld, center_crop P nd)

/-- The `for i, ldct_i in enumerate(indexes)` loop of getbatch: resolves
the pairing policy, fetches both arrays, processes the sample, and
writes row i of both batch buffers. -/
def getbatchGo (fns : AugFns) (augd : ℕ → AugDraws) (rcd : ℕ → ℕ × ℕ)
    (pl : AugPipeline) (s : DataLoader) :
    ℕ → List ℕ → List Arr2 → List Arr2 → Except Err (List Arr2 × List Arr2)
  | _, [], bx, bys => Except.ok (bx, bys)
  | i, j :: rest, bx, bys =>
    match listGet s.ldct j with
    | Except.error e => Except.error e
    | Except.ok ld =>
      match listGet s.ndct (pairIndex s.train_pair j) with
      | Except.error e => Except.error e
      | Except.ok nd =>
        match procSample fns pl (augd i) (rcd i) s ld nd with
        | Except.error e => Except.error e
        | Except.ok pr =>
          match setRow s.input_size bx i pr.1 with
          | Except.error e => Except.error e
          | Except.ok bx2 =>
            match setRow s.input_size bys i pr.2 with
            | Except.error e => Except.error e
            | Except.ok bys2 => getbatchGo fns augd rcd pl s (i + 1) rest bx2 bys2

/-- DataLoader.getbatch with an explicit pipeline pl: allocates the two
zero buffers of shape (batch_size, input_size), runs the loop, appends
the trailing channel axis.  The actual method uses pl = self.aug (see
getbatch below); keeping the pipeline explicit lets the theorems state
which probabilities gate a batch draw. -/
def getbatchPl (fns : AugFns) (augd : ℕ → AugDraws) (rcd : ℕ → ℕ × ℕ)
    (pl : AugPipeline) (s : DataLoader) (inds : List ℕ) :
    Except Err (List Arr3 × List Arr3) :=
  let z := zerosArr s.input_size.1 s.input_size.2
  match getbatchGo fns augd rcd pl s 0 inds
      (List.replicate s.batch_size z) (List.replicate s.batch_size z) with
  | Except.error e => Except.error e
  | Except.ok p => Except.ok (p.1.map addChannel, p.2.map addChannel)

/-- DataLoader.getbatch: the loop is gated by the stored composed
pipeline self.aug. -/
def getbatch (fns : AugFns) (augd : ℕ → AugDraws) (rcd : ℕ → ℕ × ℕ)
    (s : DataLoader) (inds : List ℕ) : Except Err (List Arr3 × List Arr3) :=
  getbatchPl fns augd rcd s.aug s inds

/-- The index window of __getitem__:
`self.indexes[idx*self.batch_size : (idx+1)*self.batch_size]`, a Python
slice, so it clamps and never raises. -/
def windowOfZ (s : DataLoader) (idx : ℤ) : List ℕ :=
  pySlice (idx * (s.batch_size : ℤ)) ((idx + 1) * (s.batch_size : ℤ)) s.indexes

/-- DataLoader.__getitem__ with an explicit pipeline (see getbatchPl). -/
def getitemPl (fns : AugFns) (augd : ℕ → AugDraws) (rcd : ℕ → ℕ × ℕ)
    (pl : AugPipeline) (s : DataLoader) (idx : ℤ) :
    Except Err (List Arr3 × List Arr3) :=
  getbatchPl fns augd rcd pl s (windowOfZ s idx)

/-- DataLoader.__getitem__: slice the index window, call getbatch. -/
def getitem (fns : AugFns) (augd : ℕ → AugDraws) (rcd : ℕ → ℕ × ℕ)
    (s : DataLoader) (idx : ℤ) : Except Err (List Arr3 × List Arr3) :=
  getitemPl fns augd rcd s.aug s idx

/-- DataLoader.__len__: `len(self.ldct) // self.batch_size`. -/
def len' (s : DataLoader) : ℕ :=
  s.ldct.length / s.batch_size

/-- DataLoader.on_epoch_end: np.random.shuffle(self.indexes) in train
mode, nothing otherwise.  The shuffle is the external RNG collaborator,
passed as a function on the index list. -/
def on_epoch_end (shuffle : List ℕ → List ℕ) (s : DataLoader) : DataLoader :=
  if s.mode = Mode.train then { s with indexes := shuffle s.indexes } else s

/-- DataLoader.set_params: stores the three probabilities on self.  It
does not touch self.aug. -/
def set_params (g e h : ℚ) (s : DataLoader) : DataLoader :=
  { s with prob_distort := g, prob_elastic := e, prob_histeq := h }

/-- DataLoader.get_augmentation: composes the pipeline from the three
stored probabilities and stores it on self. -/
def get_augmentation (s : DataLoader) : DataLoader :=
  { s with aug := ⟨s.prob_distort, s.prob_elastic, s.prob_histeq⟩ }

/-- DataLoader.load: filter both sorted path lists by the split policy
(substring containment of the patient tags in the file name), load each
kept file. -/
def load (mode : Mode) (vp tp : List Char) (lps nps : List FileEnt) :
    List Arr2 × List Arr2 :=
  match mode with
  | Mode.train =>
    ((lps.filter (fun f => !(listContains vp f.name) && !(listContains tp f.name))).map FileEnt.arr,
     (nps.filter (fun f => !(listContains vp f.name) && !(listContains tp f.name))).map FileEnt.arr)
  | Mode.valid =>
    ((lps.filter (fun f => listContains vp f.name)).map FileEnt.arr,
     (nps.filter (fun f => listContains vp f.name)).map FileEnt.arr)
  | Mode.test =>
    ((lps.filter (fun f => listContains tp f.name)).map FileEnt.arr,
     (nps.filter (fun f => listContains tp f.name)).map FileEnt.arr)

/-- DataLoader.__init__: loads the split, derives input_size (patch or
the shape of source element 0 — IndexError when patch_size is None and
the split is empty), sets indexes = np.arange(len(ldct)), then runs
on_epoch_end(), set_params() (defaults 0) and get_augmentation().  The
prob and aug fields of the record literal are placeholders that the two
trailing calls immediately overwrite, mirroring the Python call order.
The sorted glob results and the shuffle RNG are external collaborators
passed in. -/
def init (mode : Mode) (vp tp : List Char) (B : ℕ) (tpair : Bool)
    (patch : Option ℕ) (lps nps : List FileEnt)
    (shuffle : List ℕ → List ℕ) : Except Err DataLoader :=
  let ld := (load mode vp tp lps nps).1
  let nd := (load mode vp tp lps nps).2
  let mk : ℕ × ℕ → DataLoader := fun isz =>
    { mode := mode, valid_patient := vp, test_patient := tp,
      batch_size := B, train_pair := tpair, patch_size := patch,
      input_size := isz, ldct := ld, ndct := nd,
      indexes := List.range ld.length,
      prob_distort := 0, prob_elastic := 0, prob_histeq := 0,
      aug := ⟨0, 0, 0⟩ }
  match patch with
  | some P =>
    Except.ok (get_augmentation (set_params 0 0 0 (on_epoch_end shuffle (mk (P, P)))))
  | none =>
    match ld with
    | [] => Except.error Err.indexError
    | a :: _ =>
      Except.ok (get_augmentation (set_params 0 0 0 (on_epoch_end shuffle (mk (shape0 a, shape1 a)))))

/-- Did the call return normally (no exception)? -/
def exOk {α : Type u} : Except Err α → Bool
  | Except.ok _ => true
  | Except.error _ => false

/-- The first-dimension lengths of a returned batch pair, when the call
returned normally. -/
def exLen2 (e : Except Err (List Arr3 × List Arr3)) : Option (ℕ × ℕ) :=
  match e with
  | Except.ok p => some (p.1.length, p.2.length)
  | Except.error _ => none

/-- Row k of each returned batch array, when the call returned
normally. -/
def exRow (k : ℕ) (e : Except Err (List Arr3 × List Arr3)) :
    Option (Option Arr3 × Option Arr3) :=
  match e with
  | Except.ok p => some (p.1.get? k, p.2.get? k)
  | Except.error _ => none

/-! ## Concrete fixtures used by witnesses and counterexamples -/

/-- Identity transforms: every albumentations transform leaves the pair
unchanged. -/
def fns0 : AugFns :=
  { gridDistortion := fun a b => (a, b),
    elasticTransform := fun a b => (a, b),
    clahe := fun a b => (a, b) }

/-- Transforms where CLAHE visibly edits the image (adds 1 to every
pixel) and leaves the mask alone, to observe which probability gates
it. -/
def fnsC : AugFns :=
  { gridDistortion := fun a b => (a, b),
    elasticTransform := fun a b => (a, b),
    clahe := fun a b => (a.map (fun r => r.map (fun v => v + 1)), b) }

/-- All Bernoulli draws 0 (a transform with probability > 0 fires). -/
def augd0 : ℕ → AugDraws := fun _ => ⟨0, 0, 0⟩

/-- All random-crop offset seeds 0. -/
def rcd0 : ℕ → ℕ × ℕ := fun _ => (0, 0)

/-- A valid-mode loader over one 3x3 sample, batch size 1, patch 2. -/
def sEval : DataLoader :=
  { mode := Mode.valid, valid_patient := ['v'], test_patient := ['t'],
    batch_size := 1, train_pair := true, patch_size := some 2, input_size := (2, 2),
    ldct := [[[1, 2, 3], [4, 5, 6], [7, 8, 9]]],
    ndct := [[[1, 2, 3], [4, 5, 6], [7, 8, 9]]],
    indexes := [0],
    prob_distort := 0, prob_elastic := 0, prob_histeq := 0, aug := ⟨0, 0, 0⟩ }

/-- A train-mode loader over one 2x2 sample, batch size 1, patch 1,
with the probabilities and the composed pipeline as __init__ leaves
them (all zero). -/
def sT : DataLoader :=
  { mode := Mode.train, valid_patient := ['v'], test_patient := ['t'],
    batch_size := 1, train_pair := true, patch_size := some 1, input_size := (1, 1),
    ldct := [[[1, 2], [3, 4]]], ndct := [[[1, 2], [3, 4]]],
    indexes := [0],
    prob_distort := 0, prob_elastic := 0, prob_histeq := 0, aug := ⟨0, 0, 0⟩ }

/-- A valid-mode loader over three 3x3 samples, batch size 2, patch 2:
batch_count is 1, so position 1 has a partial (length-1) window. -/
def sPart : DataLoader :=
  { mode := Mode.valid, valid_patient := ['v'], test_patient := ['t'],
    batch_size := 2, train_pair := true, patch_size := some 2, input_size := (2, 2),
    ldct := [[[1, 2, 3], [4, 5, 6], [7, 8, 9]],
             [[11, 12, 13], [14, 15, 16], [17, 18, 19]],
             [[21, 22, 23], [24, 25, 26], [27, 28, 29]]],
    ndct := [[[1, 2, 3], [4, 5, 6], [7, 8, 9]],
             [[11, 12, 13], [14, 15, 16], [17, 18, 19]],
             [[21, 22, 23], [24, 25, 26], [27, 28, 29]]],
    indexes := [0, 1, 2],
    prob_distort := 0, prob_elastic := 0, prob_histeq := 0, aug := ⟨0, 0, 0⟩ }

/-- A valid-mode loader whose permutation is [2, 0, 1] over 3 samples. -/
def sV : DataLoader :=
  { mode := Mode.valid, valid_patient := ['v'], test_patient := ['t'],
    batch_size := 1, train_pair := true, patch_size := some 1, input_size := (1, 1),
    ldct := [[[1]], [[2]], [[3]]], ndct := [[[1]], [[2]], [[3]]],
    indexes := [2, 0, 1],
    prob_distort := 0, prob_elastic := 0, prob_histeq := 0, aug := ⟨0, 0, 0⟩ }

/-- A valid-mode loader over 17 one-pixel samples with batch size 8
(the N=17, B=8 example of the spec). -/
def s17 : DataLoader :=
  { mode := Mode.valid, valid_patient := ['v'], test_patient := ['t'],
    batch_size := 8, train_pair := true, patch_size := some 1, input_size := (1, 1),
    ldct := List.replicate 17 [[0]], ndct := List.replicate 17 [[0]],
    indexes := List.range 17,
    prob_distort := 0, prob_elastic := 0, prob_histeq := 0, aug := ⟨0, 0, 0⟩ }

/-- A 4x4 image (even side) for the odd-patch center-crop analysis. -/
def img4 : Arr2 := [[1, 2, 3, 4], [5, 6, 7, 8], [9, 10, 11, 12], [13, 14, 15, 16]]

/-- A 5x5 image (odd side) for the odd-patch center-crop analysis. -/
def img5 : Arr2 :=
  [[1, 2, 3, 4, 5], [6, 7, 8, 9, 10], [11, 12, 13, 14, 15],
   [16, 17, 18, 19, 20], [21, 22, 23, 24, 25]]

/-- A 3x3 image and a 3x3 mask for random-crop witnesses. -/
def img3 : Arr2 := [[1, 2, 3], [4, 5, 6], [7, 8, 9]]

/-- See img3. -/
def mask3 : Arr2 := [[10, 11, 12], [13, 14, 15], [16, 17, 18]]

/-- A single source file whose name matches no patient tag. -/
def fileA : FileEnt := ⟨['a'], [[1]]⟩

/-! ## Helper lemmas about the Python slice model -/

theorem pyIdx_natCast (n a : ℕ) : pyIdx n (a : ℤ) = min a n := by
  unfold pyIdx
  split <;> omega

/-- A Python slice with nonnegative bounds is a drop followed by a take. -/
theorem pySlice_natCast {α : Type u} (a b : ℕ) (l : List α) :
    pySlice (a : ℤ) (b : ℤ) l = (l.drop a).take (b - a) := by
  unfold pySlice
  rw [pyIdx_natCast, pyIdx_natCast]
  rcases le_or_lt a l.length with h | h
  · rw [Nat.min_eq_left h]
    rcases le_or_lt b l.length with h2 | h2
    · rw [Nat.min_eq_left h2]
    · rw [Nat.min_eq_right (le_of_lt h2)]
      have d1 : (l.drop a).take (l.length - a) = l.drop a :=
        List.take_of_length_le (by rw [List.length_drop])
      have d2 : (l.drop a).take (b - a) = l.drop a :=
        List.take_of_length_le (by rw [List.length_drop]; omega)
      rw [d1, d2]
  · rw [Nat.min_eq_right (le_of_lt h)]
    rw [List.drop_length, List.drop_eq_nil_of_le (le_of_lt h)]
    simp

theorem pySlice_length_le {α : Type u} (a b : ℤ) (l : List α) :
    (pySlice a b l).length ≤ l.length := by
  unfold pySlice
  rw [List.length_take, List.length_drop]
  omega

theorem mem_pySlice {α : Type u} {x : α} {a b : ℤ} {l : List α}
    (h : x ∈ pySlice a b l) : x ∈ l := by
  unfold pySlice at h
  exact List.mem_of_mem_drop (List.mem_of_mem_take h)

/-- A slice bound pair that is B apart yields at most B elements. -/
theorem pyIdx_window_le (n B : ℕ) (a : ℤ) :
    pyIdx n (a + (B : ℤ)) - pyIdx n a ≤ B := by
  unfold pyIdx
  split <;> split <;> omega

theorem windowOfZ_length_le (s : DataLoader) (idx : ℤ) :
    (windowOfZ s idx).length ≤ s.batch_size := by
  unfold windowOfZ pySlice
  rw [List.length_take]
  have h : (idx + 1) * (s.batch_size : ℤ) = idx * (s.batch_size : ℤ) + (s.batch_size : ℤ) := by
    ring
  rw [h]
  have := pyIdx_window_le s.indexes.length s.batch_size (idx * (s.batch_size : ℤ))
  omega

theorem mem_windowOfZ {s : DataLoader} {idx : ℤ} {j : ℕ}
    (h : j ∈ windowOfZ s idx) : j ∈ s.indexes :=
  mem_pySlice h

/-- Concatenating the B-wide windows at positions 0..k-1 reads exactly
the first k*B elements of the underlying list. -/
theorem windows_concat {α : Type u} (l : List α) (B : ℕ) (k : ℕ) :
    (List.range k).flatMap (fun p => (l.drop (p * B)).take B) = l.take (k * B) := by
  induction k with
  | zero => simp
  | succ k ih =>
    rw [List.range_succ, List.flatMap_append, ih]
    have h1 : (k + 1) * B = k * B + B := by ring
    rw [h1, List.take_add]
    congr 1
    simp

/-! ## Helper lemmas about windows and crops -/

/-- The 2D slice `a[x:x+P, y:y+P]` at nonnegative offsets is the
(clamped) window at (x, y). -/
theorem pySlice2_eq_windowAt (x y P : ℕ) (a : Arr2) :
    (pySlice (x : ℤ) ((x : ℤ) + (P : ℤ)) a).map
        (fun r => pySlice (y : ℤ) ((y : ℤ) + (P : ℤ)) r)
      = windowAt x y P a := by
  have e1 : (x : ℤ) + (P : ℤ) = ((x + P : ℕ) : ℤ) := by push_cast; ring
  rw [e1, pySlice_natCast, show x + P - x = P from by omega]
  unfold windowAt
  apply List.map_congr_left
  intro r _
  have e2 : (y : ℤ) + (P : ℤ) = ((y + P : ℕ) : ℤ) := by push_cast; ring
  rw [e2, pySlice_natCast, show y + P - y = P from by omega]

theorem windowAt_wf {X Y : ℕ} (x y P : ℕ) {a : Arr2} (h : Arr2.wf X Y a)
    (hx : x + P ≤ X) (hy : y + P ≤ Y) : Arr2.wf P P (windowAt x y P a) := by
  obtain ⟨h1, h2⟩ := h
  constructor
  · unfold windowAt
    rw [List.length_map, List.length_take, List.length_drop, h1]
    omega
  · intro r hr
    unfold windowAt at hr
    obtain ⟨r0, hr0, rfl⟩ := List.mem_map.mp hr
    have hmem : r0 ∈ a := List.mem_of_mem_drop (List.mem_of_mem_take hr0)
    rw [List.length_take, List.length_drop, h2 r0 hmem]
    omega

theorem shape1_of_wf {X Y : ℕ} {a : Arr2} (h : Arr2.wf X Y a) (hX : 0 < X) :
    shape1 a = Y := by
  obtain ⟨h1, h2⟩ := h
  unfold shape1
  cases a with
  | nil => simp at h1; omega
  | cons r t => exact h2 r (List.mem_cons_self r t)

/-- In-bounds center crop equals the window at startx = X/2 - P/2,
starty = Y/2 - P/2. -/
theorem center_crop_eq_windowAt {P X Y : ℕ} {img : Arr2}
    (hwf : Arr2.wf X Y img) (hPX : P ≤ X) (hPY : P ≤ Y) :
    center_crop P img = windowAt (X / 2 - P / 2) (Y / 2 - P / 2) P img := by
  rcases Nat.eq_zero_or_pos X with hX | hX
  · have hP : P = 0 := by omega
    have himg : img = [] := List.length_eq_zero.mp (by rw [hwf.1, hX])
    subst hP himg
    rfl
  · have hs0 : shape0 img = X := hwf.1
    have hs1 : shape1 img = Y := shape1_of_wf hwf hX
    unfold center_crop
    rw [hs0, hs1]
    have e1 : ((X / 2 : ℕ) : ℤ) - ((P / 2 : ℕ) : ℤ) = ((X / 2 - P / 2 : ℕ) : ℤ) := by
      omega
    have e2 : ((Y / 2 : ℕ) : ℤ) - ((P / 2 : ℕ) : ℤ) = ((Y / 2 - P / 2 : ℕ) : ℤ) := by
      omega
    rw [e1, e2, pySlice2_eq_windowAt]

theorem center_crop_wf {P X Y : ℕ} {img : Arr2}
    (hwf : Arr2.wf X Y img) (hPX : P ≤ X) (hPY : P ≤ Y) :
    Arr2.wf P P (center_crop P img) := by
  rw [center_crop_eq_windowAt hwf hPX hPY]
  exact windowAt_wf _ _ _ hwf (by omega) (by omega)

/-! ## The getbatch loop in eval mode -/

/-- Running the getbatch loop in a non-train mode over well-formed
samples succeeds, never changes the buffer lengths, and leaves every
buffer row at or beyond the processed window untouched. -/
theorem getbatchGo_eval_ok (fns : AugFns) (augd : ℕ → AugDraws) (rcd : ℕ → ℕ × ℕ)
    (pl : AugPipeline) (s : DataLoader) (X Y P : ℕ)
    (hmode : s.mode ≠ Mode.train) (hpatch : s.patch_size = some P)
    (hsize : s.input_size = (P, P))
    (hld : ∀ a ∈ s.ldct, Arr2.wf X Y a) (hnd : ∀ a ∈ s.ndct, Arr2.wf X Y a)
    (hPX : P ≤ X) (hPY : P ≤ Y) :
    ∀ (rest : List ℕ) (i : ℕ) (bx bys : List Arr2),
      (∀ j ∈ rest, j < s.ldct.length ∧ pairIndex s.train_pair j < s.ndct.length) →
      i + rest.length ≤ bx.length → bx.length = bys.length →
      ∃ bx2 bys2,
        getbatchGo fns augd rcd pl s i rest bx bys = Except.ok (bx2, bys2) ∧
          bx2.length = bx.length ∧ bys2.length = bys.length ∧
          ∀ k, i + rest.length ≤ k → bx2.get? k = bx.get? k ∧ bys2.get? k = bys.get? k := by
  intro rest
  induction rest with
  | nil =>
    intro i bx bys _ _ _
    exact ⟨bx, bys, rfl, rfl, rfl, fun k _ => ⟨rfl, rfl⟩⟩
  | cons j rest ih =>
    intro i bx bys hjs hlen hbb
    simp only [List.length_cons] at hlen
    obtain ⟨hj, hpj⟩ := hjs j (List.mem_cons_self j rest)
    have h1 : listGet s.ldct j = Except.ok (s.ldct.get ⟨j, hj⟩) := by
      unfold listGet; rw [List.get?_eq_get hj]
    have h2 : listGet s.ndct (pairIndex s.train_pair j)
        = Except.ok (s.ndct.get ⟨pairIndex s.train_pair j, hpj⟩) := by
      unfold listGet; rw [List.get?_eq_get hpj]
    have hldwf : Arr2.wf X Y (s.ldct.get ⟨j, hj⟩) :=
      hld _ (List.get_mem s.ldct j hj)
    have hndwf : Arr2.wf X Y (s.ndct.get ⟨pairIndex s.train_pair j, hpj⟩) :=
      hnd _ (List.get_mem s.ndct (pairIndex s.train_pair j) hpj)
    have h3 : procSample fns pl (augd i) (rcd i) s (s.ldct.get ⟨j, hj⟩)
          (s.ndct.get ⟨pairIndex s.train_pair j, hpj⟩)
        = Except.ok (center_crop P (s.ldct.get ⟨j, hj⟩),
            center_crop P (s.ndct.get ⟨pairIndex s.train_pair j, hpj⟩)) := by
      unfold procSample
      rw [if_neg hmode, hpatch]
    have hcw1 : Arr2.wf P P (center_crop P (s.ldct.get ⟨j, hj⟩)) :=
      center_crop_wf hldwf hPX hPY
    have hcw2 : Arr2.wf P P (center_crop P (s.ndct.get ⟨pairIndex s.train_pair j, hpj⟩)) :=
      center_crop_wf hndwf hPX hPY
    have hi : i < bx.length := by omega
    have hi2 : i < bys.length := by omega
    have h4 : setRow s.input_size bx i (center_crop P (s.ldct.get ⟨j, hj⟩))
        = Except.ok (bx.set i (center_crop P (s.ldct.get ⟨j, hj⟩))) := by
      unfold setRow
      rw [hsize, if_pos hi, if_pos ⟨hcw1.1, hcw1.2⟩]
    have h5 : setRow s.input_size bys i
          (center_crop P (s.ndct.get ⟨pairIndex s.train_pair j, hpj⟩))
        = Except.ok (bys.set i
            (center_crop P (s.ndct.get ⟨pairIndex s.train_pair j, hpj⟩))) := by
      unfold setRow
      rw [hsize, if_pos hi2, if_pos ⟨hcw2.1, hcw2.2⟩]
    obtain ⟨bx2, bys2, heq, hl1, hl2, hrows⟩ :=
      ih (i + 1) (bx.set i (center_crop P (s.ldct.get ⟨j, hj⟩)))
        (bys.set i (center_crop P (s.ndct.get ⟨pairIndex s.train_pair j, hpj⟩)))
        (fun j2 hj2 => hjs j2 (List.mem_cons_of_mem j hj2))
        (by rw [List.length_set]; omega)
        (by rw [List.length_set, List.length_set]; omega)
    refine ⟨bx2, bys2, ?_, ?_, ?_, ?_⟩
    · simp only [getbatchGo, h1, h2, h3, h4, h5]
      exact heq
    · rw [hl1, List.length_set]
    · rw [hl2, List.length_set]
    · intro k hk
      simp only [List.length_cons] at hk
      obtain ⟨e1, e2⟩ := hrows k (by omega)
      constructor
      · rw [e1, List.get?_set_ne _ _ (by omega)]
      · rw [e2, List.get?_set_ne _ _ (by omega)]

/-! ## Claim theorems -/

/-- C5: the pairing policy maps j to j when train_pair is true; when
train_pair is false it maps 0 to 1 and any j+1 to j (so 5 maps to 4). -/
theorem c5_pairing_policy (j : ℕ) :
    pairIndex true j = j ∧ pairIndex false 0 = 1 ∧
      pairIndex false (j + 1) = j ∧ pairIndex false 5 = 4 := by
  refine ⟨rfl, rfl, ?_, rfl⟩
  simp [pairIndex]

/-- C6: __len__ returns floor(N / batch_size), and one epoch pass
(positions 0 .. len-1) reads exactly the first (N/B)*B entries of the
index permutation, so the trailing N mod B permutation slots are never
drawn. -/
theorem c6_batch_count (s : DataLoader) (N B : ℕ)
    (hN : s.ldct.length = N) (hB : s.batch_size = B) (_hpos : 0 < B)
    (_hI : s.indexes.length = N) :
    len' s = N / B ∧
      (List.range (len' s)).flatMap (fun p => windowOfZ s (p : ℤ))
        = s.indexes.take ((N / B) * B) := by
  have hl : len' s = N / B := by unfold len'; rw [hN, hB]
  refine ⟨hl, ?_⟩
  have hw : ∀ p : ℕ, windowOfZ s (p : ℤ) = (s.indexes.drop (p * B)).take B := by
    intro p
    unfold windowOfZ
    rw [hB]
    have h1 : (p : ℤ) * (B : ℤ) = ((p * B : ℕ) : ℤ) := by push_cast; ring
    have h2 : ((p : ℤ) + 1) * (B : ℤ) = (((p + 1) * B : ℕ) : ℤ) := by push_cast; ring
    rw [h1, h2, pySlice_natCast]
    have h3 : (p + 1) * B = p * B + B := by ring
    rw [h3]
    congr 1
    omega
  simp only [hw]
  rw [windows_concat, hl]

/-- C6 witness: N = 17 samples, batch size 8 — len is 2 and the epoch
reads index positions 0..15 only. -/
theorem c6_witness :
    len' s17 = 17 / 8 ∧
      (List.range (len' s17)).flatMap (fun p => windowOfZ s17 (p : ℤ))
        = s17.indexes.take ((17 / 8) * 8) :=
  c6_batch_count s17 17 8 (by decide) (by decide) (by decide) (by decide)

/-- C9: on_epoch_end maps a permutation of [0, N) to a permutation of
[0, N) (in train mode the external shuffle permutes the list), and in
non-train modes it is the identity. -/
theorem c9_epoch_end_permutation (shuffle : List ℕ → List ℕ) (s : DataLoader) (N : ℕ)
    (hsh : ∀ l, List.Perm (shuffle l) l)
    (hp : List.Perm s.indexes (List.range N)) :
    List.Perm (on_epoch_end shuffle s).indexes (List.range N) ∧
      (s.mode ≠ Mode.train → on_epoch_end shuffle s = s) := by
  constructor
  · unfold on_epoch_end
    split
    · exact (hsh s.indexes).trans hp
    · exact hp
  · intro h
    unfold on_epoch_end
    rw [if_neg h]

/-- C9 witness: a valid-mode loader with permutation [2,0,1] over 3
samples, shuffled (if it were train) by reversal. -/
theorem c9_witness :
    List.Perm (on_epoch_end List.reverse sV).indexes (List.range 3) ∧
      (sV.mode ≠ Mode.train → on_epoch_end List.reverse sV = sV) :=
  c9_epoch_end_permutation List.reverse sV 3 (fun l => List.reverse_perm l) (by decide)

/-- C4 counterexample: on a 2x2 array with patch size 4 (window out of
bounds), center_crop does not fail: the Python slices clamp and it
returns the 1x1 array [[4]]. -/
theorem c4_counterexample : center_crop 4 [[1, 2], [3, 4]] = [[4]] := by decide

/-- C4 amended: on an undersized array, center_crop raises nothing; the
clamped Python slices return an array with fewer than P rows (when
X < P) and rows shorter than P (when Y < P). -/
theorem c4_amended_center_crop_clamps (P X Y : ℕ) (img : Arr2)
    (hwf : Arr2.wf X Y img) :
    (X < P → (center_crop P img).length < P) ∧
      (Y < P → ∀ r ∈ center_crop P img, r.length < P) := by
  obtain ⟨h1, h2⟩ := hwf
  constructor
  · intro hX
    simp only [center_crop, List.length_map]
    exact lt_of_le_of_lt (pySlice_length_le _ _ _) (by omega)
  · intro hY r hr
    simp only [center_crop] at hr
    obtain ⟨r0, hr0, rfl⟩ := List.mem_map.mp hr
    have hm : r0 ∈ img := mem_pySlice hr0
    have hr0l : r0.length = Y := h2 r0 hm
    exact lt_of_le_of_lt (pySlice_length_le _ _ _) (by omega)

/-- C4 witness: the 2x2 array with patch 4 yields fewer than 4 rows and
short rows. -/
theorem c4_witness :
    (2 < 4 → (center_crop 4 [[1, 2], [3, 4]]).length < 4) ∧
      (2 < 4 → ∀ r ∈ center_crop 4 [[1, 2], [3, 4]], r.length < 4) :=
  c4_amended_center_crop_clamps 4 2 2 [[1, 2], [3, 4]] (by decide)

/-- C7 counterexample: X = 4 (even), P = 3 (odd): the crop actually
returned is the window at startx = 4/2 - 3/2 = 1, which differs from
the window at (X-P)/2 = 0 that the claim asserts for every odd P. -/
theorem c7_counterexample :
    center_crop 3 img4 = windowAt 1 1 3 img4 ∧
      windowAt ((4 - 3) / 2) ((4 - 3) / 2) 3 img4 ≠ center_crop 3 img4 := by
  constructor <;> decide

/-- C7 amended: in-bounds center crop is the (P,P) window at
startx = X/2 - P/2, starty = Y/2 - P/2; for odd P the identity
startx = (X-P)/2 holds when X is odd, while for even X (and odd P)
startx = (X-P)/2 + 1. -/
theorem c7_amended_center_crop (P X Y : ℕ) (img : Arr2)
    (hwf : Arr2.wf X Y img) (hPX : P ≤ X) (hPY : P ≤ Y) :
    center_crop P img = windowAt (X / 2 - P / 2) (Y / 2 - P / 2) P img ∧
      Arr2.wf P P (center_crop P img) ∧
      (Odd P → Odd X → X / 2 - P / 2 = (X - P) / 2) ∧
      (Odd P → Even X → X / 2 - P / 2 = (X - P) / 2 + 1) := by
  refine ⟨center_crop_eq_windowAt hwf hPX hPY, center_crop_wf hwf hPX hPY, ?_, ?_⟩
  · rintro ⟨a, ha⟩ ⟨b, hb⟩
    omega
  · rintro ⟨a, ha⟩ ⟨b, hb⟩
    omega

/-- C7 witness: X = Y = 5, P = 3 (both odd), on a concrete 5x5 image. -/
theorem c7_witness :
    center_crop 3 img5 = windowAt (5 / 2 - 3 / 2) (5 / 2 - 3 / 2) 3 img5 ∧
      Arr2.wf 3 3 (center_crop 3 img5) ∧
      (Odd 3 → Odd 5 → 5 / 2 - 3 / 2 = (5 - 3) / 2) ∧
      (Odd 3 → Even 5 → 5 / 2 - 3 / 2 = (5 - 3) / 2 + 1) :=
  c7_amended_center_crop 3 5 5 img5 (by decide) (by decide) (by decide)

/-- C8: for same-shape (H, W) inputs with P < H and P < W strictly,
random_crop succeeds and returns the SAME (x, y)-offset (P, P) window
from both arrays, with x = rx mod (H-P) in [0, H-P) and
y = ry mod (W-P) in [0, W-P); when H <= P or W <= P the randint call
raises (numpy ValueError, the CropError-kind of the spec taxonomy). -/
theorem c8_random_crop (img mask : Arr2) (H W P rx ry : ℕ)
    (hi : Arr2.wf H W img) (hm : Arr2.wf H W mask) :
    (P < H → P < W →
      random_crop (some P) rx ry img mask
        = Except.ok (windowAt (rx % (H - P)) (ry % (W - P)) P img,
            windowAt (rx % (H - P)) (ry % (W - P)) P mask) ∧
        rx % (H - P) < H - P ∧ ry % (W - P) < W - P ∧
        Arr2.wf P P (windowAt (rx % (H - P)) (ry % (W - P)) P img) ∧
        Arr2.wf P P (windowAt (rx % (H - P)) (ry % (W - P)) P mask)) ∧
    ((H ≤ P ∨ W ≤ P) → random_crop (some P) rx ry img mask
        = Except.error Err.valueError) := by
  have hs0i : shape0 img = H := hi.1
  have hs0m : shape0 mask = H := hm.1
  have hsh : (shape0 img, shape1 img) = (shape0 mask, shape1 mask) := by
    rcases Nat.eq_zero_or_pos H with h0 | h0
    · have e1 : img = [] := List.length_eq_zero.mp (by rw [hi.1, h0])
      have e2 : mask = [] := List.length_eq_zero.mp (by rw [hm.1, h0])
      rw [e1, e2]
    · rw [hs0i, hs0m, shape1_of_wf hi h0, shape1_of_wf hm h0]
  constructor
  · intro hPH hPW
    have hs1i : shape1 img = W := shape1_of_wf hi (by omega)
    have hxlt : rx % (H - P) < H - P := Nat.mod_lt rx (by omega)
    have hylt : ry % (W - P) < W - P := Nat.mod_lt ry (by omega)
    have hx : np_randint0 rx ((shape0 img : ℤ) - (P : ℤ))
        = Except.ok ((rx % (H - P) : ℕ) : ℤ) := by
      unfold np_randint0
      rw [hs0i, if_neg (by omega)]
      congr 1
      push_cast [Nat.cast_sub (le_of_lt hPH)]
      ring
    have hy : np_randint0 ry ((shape1 img : ℤ) - (P : ℤ))
        = Except.ok ((ry % (W - P) : ℕ) : ℤ) := by
      unfold np_randint0
      rw [hs1i, if_neg (by omega)]
      congr 1
      push_cast [Nat.cast_sub (le_of_lt hPW)]
      ring
    refine ⟨?_, hxlt, hylt,
      windowAt_wf _ _ _ hi (by omega) (by omega),
      windowAt_wf _ _ _ hm (by omega) (by omega)⟩
    simp only [random_crop]
    rw [if_pos hsh]
    simp only [hx, hy]
    rw [pySlice2_eq_windowAt, pySlice2_eq_windowAt]
  · intro hor
    by_cases hH : H ≤ P
    · have hx : np_randint0 rx ((shape0 img : ℤ) - (P : ℤ))
          = Except.error Err.valueError := by
        unfold np_randint0
        rw [hs0i, if_pos (by omega)]
      simp only [random_crop]
      rw [if_pos hsh]
      simp only [hx]
    · have hW : W ≤ P := by omega
      have hs1i : shape1 img = W := shape1_of_wf hi (by omega)
      have hx : np_randint0 rx ((shape0 img : ℤ) - (P : ℤ))
          = Except.ok ((rx : ℤ) % ((H : ℤ) - (P : ℤ))) := by
        unfold np_randint0
        rw [hs0i, if_neg (by omega)]
      have hy : np_randint0 ry ((shape1 img : ℤ) - (P : ℤ))
          = Except.error Err.valueError := by
        unfold np_randint0
        rw [hs1i, if_pos (by omega)]
      simp only [random_crop]
      rw [if_pos hsh]
      simp only [hx, hy]

/-- C8 witness: a 3x3 pair with P = 2 succeeds with the shared offset
(1 mod 1, 1 mod 1) = (0, 0); a 2x2 pair with P = 2 fails. -/
theorem c8_witness :
    (random_crop (some 2) 1 1 img3 mask3
        = Except.ok (windowAt (1 % (3 - 2)) (1 % (3 - 2)) 2 img3,
            windowAt (1 % (3 - 2)) (1 % (3 - 2)) 2 mask3) ∧
      1 % (3 - 2) < 3 - 2 ∧ 1 % (3 - 2) < 3 - 2 ∧
      Arr2.wf 2 2 (windowAt (1 % (3 - 2)) (1 % (3 - 2)) 2 img3) ∧
      Arr2.wf 2 2 (windowAt (1 % (3 - 2)) (1 % (3 - 2)) 2 mask3)) ∧
    random_crop (some 2) 0 0 [[1, 2], [3, 4]] [[5, 6], [7, 8]]
      = Except.error Err.valueError :=
  ⟨(c8_random_crop img3 mask3 3 3 2 1 1 (by decide) (by decide)).1
      (by decide) (by decide),
   (c8_random_crop [[1, 2], [3, 4]] [[5, 6], [7, 8]] 2 2 2 0 0
      (by decide) (by decide)).2 (Or.inl (by decide))⟩

/-- C1 counterexample: on a train loader fresh from construction
(pipeline composed at probabilities 0), calling set_params with histeq
probability 1 does NOT make subsequent batch draws CLAHE-gated at 1:
the draw still behaves as the pipeline composed at the old
probabilities (CLAHE never fires), and differs from a draw gated at
the new probabilities (where CLAHE fires and edits the image). -/
theorem c1_counterexample :
    getitem fnsC augd0 rcd0 (set_params 0 0 1 sT) 0
        = getitemPl fnsC augd0 rcd0 ⟨0, 0, 0⟩ (set_params 0 0 1 sT) 0 ∧
      getitem fnsC augd0 rcd0 (set_params 0 0 1 sT) 0
        ≠ getitemPl fnsC augd0 rcd0 ⟨0, 0, 1⟩ (set_params 0 0 1 sT) 0 := by
  constructor
  · rfl
  · decide

/-- C1 amended: set_params alone only stores the probabilities; batch
draws stay gated by the stored composed pipeline.  After additionally
calling get_augmentation (which recomposes the pipeline from the stored
probabilities), every subsequent get_batch call is gated by the new
probabilities. -/
theorem c1_amended_setter_then_rebuild (fns : AugFns) (augd : ℕ → AugDraws)
    (rcd : ℕ → ℕ × ℕ) (g e h : ℚ) (s : DataLoader) (idx : ℤ) :
    getitem fns augd rcd (get_augmentation (set_params g e h s)) idx
        = getitemPl fns augd rcd ⟨g, e, h⟩ (get_augmentation (set_params g e h s)) idx ∧
      getitem fns augd rcd (set_params g e h s) idx
        = getitemPl fns augd rcd s.aug (set_params g e h s) idx :=
  ⟨rfl, rfl⟩

/-- C3 counterexample: a train split with one source file and zero
target files constructs successfully (no AlignmentError-like check
exists) and yields a loader with 1 source and 0 targets. -/
theorem c3_counterexample :
    exOk (init Mode.train ['v'] ['t'] 8 true (some 2) [fileA] [] (fun l => l)) = true ∧
      (init Mode.train ['v'] ['t'] 8 true (some 2) [fileA] [] (fun l => l)).map
          (fun s => (s.ldct.length, s.ndct.length))
        = Except.ok (1, 0) := by
  constructor <;> decide

/-- C3 amended: construction performs no source/target count-alignment
check: with an integer patch size it succeeds for every directory,
split and tag pair, storing the two filtered lists however long each
is; a mismatch surfaces only later as an IndexError during batch
fetches. -/
theorem c3_amended_no_alignment_check (mode : Mode) (vp tp : List Char) (B : ℕ)
    (tpair : Bool) (P : ℕ) (lps nps : List FileEnt)
    (shuffle : List ℕ → List ℕ) :
    exOk (init mode vp tp B tpair (some P) lps nps shuffle) = true ∧
      (init mode vp tp B tpair (some P) lps nps shuffle).map
          (fun s => (s.ldct.length, s.ndct.length))
        = Except.ok ((load mode vp tp lps nps).1.length,
            (load mode vp tp lps nps).2.length) := by
  constructor
  · rfl
  · simp only [init, Except.map]
    unfold get_augmentation set_params on_epoch_end
    split
    · rfl
    · rfl

/-- C2 counterexample: on a valid-mode loader with one sample and batch
size 1 (so batch_count = 1), __getitem__ at position 1 = batch_count
and at position -1 raises nothing: both return all-zero batches,
because the Python slice of the index array clamps instead of
range-checking. -/
theorem c2_counterexample :
    len' sEval = 1 ∧
      getitem fns0 augd0 rcd0 sEval 1
        = Except.ok ([addChannel (zerosArr 2 2)], [addChannel (zerosArr 2 2)]) ∧
      getitem fns0 augd0 rcd0 sEval (-1)
        = Except.ok ([addChannel (zerosArr 2 2)], [addChannel (zerosArr 2 2)]) := by
  refine ⟨rfl, ?_, ?_⟩ <;> decide

/-- C2 amended: __getitem__ never range-checks the position: on a
non-train loader whose samples are rectangular with both sides at least
the patch size and whose index entries are valid, the call returns
normally (a zero-padded or fully zero batch) for EVERY integer
position, in range or not — no IndexError-kind failure exists. -/
theorem c2_amended_no_range_check (fns : AugFns) (augd : ℕ → AugDraws)
    (rcd : ℕ → ℕ × ℕ) (s : DataLoader) (X Y P : ℕ)
    (hmode : s.mode ≠ Mode.train) (hpatch : s.patch_size = some P)
    (hsize : s.input_size = (P, P))
    (hld : ∀ a ∈ s.ldct, Arr2.wf X Y a) (hnd : ∀ a ∈ s.ndct, Arr2.wf X Y a)
    (hPX : P ≤ X) (hPY : P ≤ Y)
    (hidx : ∀ j ∈ s.indexes, j < s.ldct.length ∧
      pairIndex s.train_pair j < s.ndct.length)
    (idx : ℤ) :
    exOk (getitem fns augd rcd s idx) = true := by
  obtain ⟨bx2, bys2, heq, -, -, -⟩ :=
    getbatchGo_eval_ok fns augd rcd s.aug s X Y P hmode hpatch hsize hld hnd hPX hPY
      (windowOfZ s idx) 0
      (List.replicate s.batch_size (zerosArr s.input_size.1 s.input_size.2))
      (List.replicate s.batch_size (zerosArr s.input_size.1 s.input_size.2))
      (fun j hj => hidx j (mem_windowOfZ hj))
      (by rw [List.length_replicate]
          have := windowOfZ_length_le s idx
          omega)
      (by simp)
  simp only [getitem, getitemPl, getbatchPl]
  rw [heq]
  rfl

/-- C2 amended witness: position 5 on a 3-sample batch-2 valid loader
(batch_count = 1) returns normally. -/
theorem c2_witness : exOk (getitem fns0 augd0 rcd0 sPart 5) = true :=
  c2_amended_no_range_check fns0 augd0 rcd0 sPart 3 3 2 (by decide) (by decide)
    (by decide) (by decide) (by decide) (by decide) (by decide) (by decide) 5

/-- C10: when the permutation window for a position holds fewer than
batch_size indices (including the empty window of any position with
position*batch_size >= N), get_batch on a non-train loader with
well-formed samples raises no out-of-range error: it returns two
arrays whose first dimension is still batch_size, and every row not
filled from a sample is the all-zero (P, P) slab (with its trailing
channel axis). -/
theorem c10_zero_padded_partial_batches (fns : AugFns) (augd : ℕ → AugDraws)
    (rcd : ℕ → ℕ × ℕ) (s : DataLoader) (X Y P : ℕ)
    (hmode : s.mode ≠ Mode.train) (hpatch : s.patch_size = some P)
    (hsize : s.input_size = (P, P))
    (hld : ∀ a ∈ s.ldct, Arr2.wf X Y a) (hnd : ∀ a ∈ s.ndct, Arr2.wf X Y a)
    (hPX : P ≤ X) (hPY : P ≤ Y)
    (hidx : ∀ j ∈ s.indexes, j < s.ldct.length ∧
      pairIndex s.train_pair j < s.ndct.length)
    (idx : ℤ) (_hshort : (windowOfZ s idx).length < s.batch_size) :
    exLen2 (getitem fns augd rcd s idx) = some (s.batch_size, s.batch_size) ∧
      ∀ i, (windowOfZ s idx).length ≤ i → i < s.batch_size →
        exRow i (getitem fns augd rcd s idx)
          = some (some (addChannel (zerosArr P P)), some (addChannel (zerosArr P P))) := by
  obtain ⟨bx2, bys2, heq, hl1, hl2, hrows⟩ :=
    getbatchGo_eval_ok fns augd rcd s.aug s X Y P hmode hpatch hsize hld hnd hPX hPY
      (windowOfZ s idx) 0
      (List.replicate s.batch_size (zerosArr s.input_size.1 s.input_size.2))
      (List.replicate s.batch_size (zerosArr s.input_size.1 s.input_size.2))
      (fun j hj => hidx j (mem_windowOfZ hj))
      (by rw [List.length_replicate]
          have := windowOfZ_length_le s idx
          omega)
      (by simp)
  have hre : getitem fns augd rcd s idx
      = Except.ok (bx2.map addChannel, bys2.map addChannel) := by
    simp only [getitem, getitemPl, getbatchPl]
    rw [heq]
  rw [List.length_replicate] at hl1 hl2
  constructor
  · rw [hre]
    simp only [exLen2, List.length_map, hl1, hl2]
  · intro i hge hlt
    obtain ⟨e1, e2⟩ := hrows i (by omega)
    have hrep : (List.replicate s.batch_size
          (zerosArr s.input_size.1 s.input_size.2)).get? i
        = some (zerosArr P P) := by
      rw [hsize, List.get?_eq_getElem?]
      simp [List.getElem?_replicate, hlt]
    rw [hre]
    simp only [exRow, List.get?_map, e1, e2, hrep, Option.map_some']

/-- C10 witness: position 1 on the 3-sample batch-2 valid loader has a
length-1 window; the batch still has first dimension 2 and row 1 is the
zero slab. -/
theorem c10_witness :
    exLen2 (getitem fns0 augd0 rcd0 sPart 1)
        = some (sPart.batch_size, sPart.batch_size) ∧
      ∀ i, (windowOfZ sPart 1).length ≤ i → i < sPart.batch_size →
        exRow i (getitem fns0 augd0 rcd0 sPart 1)
          = some (some (addChannel (zerosArr 2 2)), some (addChannel (zerosArr 2 2))) :=
  c10_zero_padded_partial_batches fns0 augd0 rcd0 sPart 3 3 2 (by decide) (by decide)
    (by decide) (by decide) (by decide) (by decide) (by decide) (by decide) 1 (by decide)
